import Mathlib

/-!
Verification of the Kundina diary PWA against its natural-language
specification.

The development shallowly embeds the TypeScript sources:
 * `src/src/lib/db.ts` — the `DiaryEntry` record and the Dexie table
   (modelled as a list of records keyed by the `id` field, plus an
   auto-increment counter);
 * `src/src/lib/background-sync.ts` — `BackgroundSyncManager`
   (`addToQueue`, `processQueue`, `syncItem`, `syncEntry`, `syncDelete`);
 * the cache utility (`IntelligentCache`: `set`, `get`, `evictLRU`,
   `shouldEvict`, `setWithTags`, `invalidateByTag`);
 * the zustand diary store (`useDiaryStore`: `fetchEntries`, `addEntry`,
   `updateEntry`, `deleteEntry`, `applyFilters`, `exportEntries`).

Conventions of the embedding:
 * JavaScript timestamps (`Date.now()`, `Date` objects) are integers
   (milliseconds since the epoch); the ambient clock is passed as an
   explicit `now : Int` argument.
 * JavaScript numeric division inside the cache score is modelled over
   `ℚ`; division by zero (which in JavaScript yields `Infinity`/`NaN`,
   values that are never `<` anything in the eviction scan) is modelled
   by an `Option ℚ` score, `none` standing for the non-finite case.
 * Fallible / effectful operations take their outcome (success or
   storage failure) as an explicit argument and return the new state.
-/

/-! ## Data model: `src/src/lib/db.ts` -/

/-- `MoodType` from `db.ts`. -/
inductive MoodType where
  | happy | sad | neutral | excited | anxious | angry | grateful | stressed
  deriving DecidableEq, Repr

/-- The string value of a `MoodType` (they are string literal types in TS). -/
def MoodType.str : MoodType → String
  | .happy => "happy"
  | .sad => "sad"
  | .neutral => "neutral"
  | .excited => "excited"
  | .anxious => "anxious"
  | .angry => "angry"
  | .grateful => "grateful"
  | .stressed => "stressed"

/-- `syncStatus: 'synced' | 'pending' | 'conflict'` from `db.ts`. -/
inductive SyncStatus where
  | synced | pending | conflict
  deriving DecidableEq, Repr

def SyncStatus.str : SyncStatus → String
  | .synced => "synced"
  | .pending => "pending"
  | .conflict => "conflict"

/-- The fields of the `DiaryEntry` interface of `db.ts`, parametrised by
the type of the recursive `conflictVersion?: DiaryEntry` field (the knot
is tied below in `DiaryEntry`).  Optional (`?:`) fields are `Option`s;
`Date` fields are integer millisecond timestamps. -/
structure DiaryEntryF (α : Type) where
  id : Option Nat
  title : String
  content : String
  date : Int
  categoryId : Option Nat
  mood : Option MoodType
  weather : Option String
  location : Option String
  tags : List String
  wordCount : Nat
  readingTime : Nat
  isPrivate : Bool
  isFavorite : Bool
  templateUsed : Option String
  linkedEntryIds : Option (List Nat)
  syncStatus : SyncStatus
  lastSyncedAt : Option Int
  conflictVersion : Option α
  deviceId : String
  version : Nat
  createdAt : Int
  updatedAt : Int

/-- `DiaryEntry` of `db.ts`: `DiaryEntryF` with `conflictVersion`
referring back to `DiaryEntry` itself. -/
inductive DiaryEntry where
  | mk : DiaryEntryF DiaryEntry → DiaryEntry

def DiaryEntry.fields : DiaryEntry → DiaryEntryF DiaryEntry
  | .mk f => f

def DiaryEntry.id (e : DiaryEntry) : Option Nat := e.fields.id

def DiaryEntry.title (e : DiaryEntry) : String := e.fields.title

def DiaryEntry.content (e : DiaryEntry) : String := e.fields.content

def DiaryEntry.date (e : DiaryEntry) : Int := e.fields.date

def DiaryEntry.mood (e : DiaryEntry) : Option MoodType := e.fields.mood

def DiaryEntry.weather (e : DiaryEntry) : Option String := e.fields.weather

def DiaryEntry.location (e : DiaryEntry) : Option String := e.fields.location

def DiaryEntry.tags (e : DiaryEntry) : List String := e.fields.tags

def DiaryEntry.wordCount (e : DiaryEntry) : Nat := e.fields.wordCount

def DiaryEntry.readingTime (e : DiaryEntry) : Nat := e.fields.readingTime

def DiaryEntry.isPrivate (e : DiaryEntry) : Bool := e.fields.isPrivate

def DiaryEntry.isFavorite (e : DiaryEntry) : Bool := e.fields.isFavorite

def DiaryEntry.syncStatus (e : DiaryEntry) : SyncStatus := e.fields.syncStatus

def DiaryEntry.lastSyncedAt (e : DiaryEntry) : Option Int := e.fields.lastSyncedAt

def DiaryEntry.createdAt (e : DiaryEntry) : Int := e.fields.createdAt

def DiaryEntry.updatedAt (e : DiaryEntry) : Int := e.fields.updatedAt

def DiaryEntry.categoryId (e : DiaryEntry) : Option Nat := e.fields.categoryId

def DiaryEntry.templateUsed (e : DiaryEntry) : Option String := e.fields.templateUsed

def DiaryEntry.linkedEntryIds (e : DiaryEntry) : Option (List Nat) := e.fields.linkedEntryIds

def DiaryEntry.conflictVersion (e : DiaryEntry) : Option DiaryEntry := e.fields.conflictVersion

def DiaryEntry.deviceId (e : DiaryEntry) : String := e.fields.deviceId

def DiaryEntry.version (e : DiaryEntry) : Nat := e.fields.version

/-- The `diaryEntries` Dexie table: the stored records (each carrying its
primary key in its `id` field, as Dexie inbound keys do) together with the
`++id` auto-increment counter. -/
structure DB where
  entries : List DiaryEntry
  nextId : Nat

/-- `db.diaryEntries.get(id)`: the record whose primary key is `id`. -/
def DB.getEntry (t : List DiaryEntry) (eid : Nat) : Option DiaryEntry :=
  t.find? (fun e => e.id = some eid)

/-- `db.diaryEntries.update(id, changes)`: apply `f` to the record whose
primary key is `id` (a no-op when no such record exists, as in Dexie). -/
def DB.updateEntry (t : List DiaryEntry) (eid : Nat) (f : DiaryEntry → DiaryEntry) :
    List DiaryEntry :=
  t.map (fun e => if e.id = some eid then f e else e)

/-- `db.diaryEntries.add(entry)` with an auto-increment `++id` key:
the fresh key is written into the stored record. -/
def DB.addEntry (db : DB) (e : DiaryEntry) : DB :=
  { entries := db.entries ++ [DiaryEntry.mk { e.fields with id := some db.nextId }],
    nextId := db.nextId + 1 }

/-- `db.diaryEntries.delete(id)`. -/
def DB.deleteEntry (db : DB) (eid : Nat) : DB :=
  { db with entries := db.entries.filter (fun e => e.id ≠ some eid) }

/-! ## Background sync: `src/src/lib/background-sync.ts` -/

/-- `type: 'create' | 'update' | 'delete'` of `SyncQueueItem`. -/
inductive SyncType where
  | create | update | delete
  deriving DecidableEq, Repr

/-- `SyncQueueItem` from `background-sync.ts`.  `data?: Partial<DiaryEntry>`
is modelled as an optional full record: `syncItem` only ever tests the
field for presence (truthiness), and the only caller that fills it,
`queuePendingEntries`, passes a whole entry. -/
structure SyncQueueItem where
  id : String
  type : SyncType
  entryId : Option Nat
  data : Option DiaryEntry
  timestamp : Int
  retryCount : Nat
  maxRetries : Nat

/-- The queue item built by `BackgroundSyncManager.addToQueue`.  The
generated `id` string (it embeds `Date.now()` and `Math.random()`) is
taken as a parameter. -/
def addToQueue (ty : SyncType) (entryId : Option Nat) (data : Option DiaryEntry)
    (idStr : String) (now : Int) : SyncQueueItem :=
  { id := idStr, type := ty, entryId := entryId, data := data,
    timestamp := now, retryCount := 0, maxRetries := 3 }

/-- `syncEntry(entryId, data)` of `background-sync.ts`: despite its name it
performs no network call ("Simulate API call"); it re-reads the entry from
the local `diaryEntries` table and, when present, overwrites only its
`syncStatus`, `lastSyncedAt` and `updatedAt` fields.  The trailing
`window.dispatchEvent` is a UI notification and does not touch the table.
`syncPatch` is the record update passed to `db.diaryEntries.update`. -/
def syncPatch (now : Int) (e : DiaryEntry) : DiaryEntry :=
  DiaryEntry.mk { e.fields with
    syncStatus := .synced, lastSyncedAt := some now, updatedAt := now }

def syncEntry (now : Int) (eid : Nat) (t : List DiaryEntry) : List DiaryEntry :=
  match DB.getEntry t eid with
  | none => t
  | some _ => DB.updateEntry t eid (syncPatch now)

/-- `syncDelete(entryId)` of `background-sync.ts`: the actual local delete
(`await db.diaryEntries.delete(entryId)`) is commented out in the source,
so the function only dispatches a `diaryEntryDeleted` event and leaves the
`diaryEntries` table untouched. -/
def syncDelete (_eid : Nat) (t : List DiaryEntry) : List DiaryEntry := t

/-- `syncItem(item)` of `background-sync.ts`.  The JavaScript truthiness
tests `item.entryId && item.data` / `item.entryId` are modelled exactly:
`entryId` must be present and non-zero (`0` is falsy). -/
def syncItem (now : Int) (item : SyncQueueItem) (t : List DiaryEntry) : List DiaryEntry :=
  match item.type with
  | .create | .update =>
      match item.entryId, item.data with
      | some eid, some _ => if eid = 0 then t else syncEntry now eid t
      | _, _ => t
  | .delete =>
      match item.entryId with
      | some eid => if eid = 0 then t else syncDelete eid t
      | none => t

/-- The body of `BackgroundSyncManager.processQueue` (the part inside
`syncInProgress` guards): each queued item is synced; an item whose sync
throws is kept (with `retryCount` incremented) when `retryCount <
maxRetries`, and a retry is scheduled by `scheduleRetry` with delay
`Math.pow(2, item.retryCount) * 1000` — computed *after* the increment;
otherwise the item is dropped.  The queue is replaced by the failed items.
Whether `syncItem` throws is abstracted by the oracle `fails`; the
returned second component lists the `(item id, delay ms)` pairs passed to
`setTimeout`. -/
def processQueue (fails : SyncQueueItem → Bool) :
    List SyncQueueItem → List SyncQueueItem × List (String × Nat)
  | [] => ([], [])
  | item :: rest =>
      if fails item then
        if item.retryCount < item.maxRetries then
          let item' := { item with retryCount := item.retryCount + 1 }
          let r := processQueue fails rest
          (item' :: r.1, (item'.id, 2 ^ item'.retryCount * 1000) :: r.2)
        else
          processQueue fails rest
      else
        processQueue fails rest

/-! ## The cache utility: `IntelligentCache` -/

namespace IntelligentCache

/-- `CacheItem<T>` of the cache source file.  `size` is the byte count
computed by `calculateSize` at insertion time. -/
structure Item (α : Type) where
  data : α
  timestamp : Int
  ttl : Int
  hits : Nat
  size : Nat

/-- The private state of an `IntelligentCache` instance: the `cache`
map (a JavaScript `Map`, i.e. an insertion-ordered association list with
unique keys), the `tags` map of tag-based invalidation, the limits set
in the constructor and the global hit/miss counters.  The element type
`any` is modelled by the parameter `α` (the cache logic never inspects
the stored data). -/
structure State (α : Type) where
  items : List (String × Item α)
  tags : List (String × List String)
  maxSize : Nat
  maxItems : Nat
  hits : Nat
  misses : Nat

/-- `Map.prototype.get` on a string-keyed JavaScript `Map` (modelled as an
insertion-ordered association list with unique keys). -/
def mapLookup (β : Type) (key : String) (l : List (String × β)) : Option β :=
  (l.find? (fun kv => kv.1 = key)).map (fun kv => kv.2)

/-- `Map.prototype.set`: replace in place when the key is present
(keeping its position, as a JavaScript `Map` does), append otherwise. -/
def mapInsert (β : Type) (key : String) (v : β) (l : List (String × β)) :
    List (String × β) :=
  if l.any (fun kv => kv.1 = key) then
    l.map (fun kv => if kv.1 = key then (key, v) else kv)
  else
    l ++ [(key, v)]

/-- In-place mutation of the value stored under `key` (object mutation
does not move the entry in the `Map`). -/
def mapUpdate (β : Type) (key : String) (f : β → β) (l : List (String × β)) :
    List (String × β) :=
  l.map (fun kv => if kv.1 = key then (kv.1, f kv.2) else kv)

/-- `Map.prototype.delete`. -/
def mapDelete (β : Type) (key : String) (l : List (String × β)) : List (String × β) :=
  l.filter (fun kv => kv.1 ≠ key)

/-- `getStats().totalSize`: the sum of the `size` fields. -/
def totalSize (α) (l : List (String × Item α)) : Nat :=
  (l.map (fun kv => kv.2.size)).sum

/-- `shouldEvict()`: `totalItems >= maxItems || totalSize >= maxSize`. -/
def shouldEvict (α) (c : State α) : Bool :=
  decide (c.items.length ≥ c.maxItems) || decide (totalSize α c.items ≥ c.maxSize)

/-- The score `item.hits / (age / 1000 / 60)` computed by `evictLRU`
("hits per minute"), with `age = Date.now() - item.timestamp`.  When
`age = 0` the JavaScript division yields `NaN` (for `hits = 0`) or
`Infinity`, neither of which ever satisfies `score < lruScore` in the
scan; this non-finite case is `none`.  Finite JavaScript doubles are
idealised as exact rationals. -/
def scoreOf (α) (now : Int) (it : Item α) : Option ℚ :=
  let age : Int := now - it.timestamp
  if age = 0 then none else some ((it.hits : ℚ) / ((age : ℚ) / 1000 / 60))

/-- The comparison `score < lruScore` of the scan, on `Option ℚ` scores
(`none` is `NaN`/`Infinity`, and the initial `lruScore` is `Infinity`,
also `none`): a non-finite left side is never smaller, a finite left side
is smaller than the initial `Infinity` and compared exactly otherwise. -/
def ltOpt : Option ℚ → Option ℚ → Bool
  | none, _ => false
  | some _, none => true
  | some a, some b => decide (a < b)

/-- The `for (const [key, item] of this.cache)` scan of `evictLRU`,
threading the `(lruKey, lruScore)` accumulator (initially
`(null, Infinity)`). -/
def selectGo (α) (now : Int) :
    List (String × Item α) → Option String × Option ℚ → Option String × Option ℚ
  | [], acc => acc
  | kv :: rest, acc =>
      let s := scoreOf α now kv.2
      selectGo α now rest (if ltOpt s acc.2 then (some kv.1, s) else acc)

/-- The full scan of `evictLRU`, from the initial `(null, Infinity)`. -/
def selectLRU (α) (now : Int) (l : List (String × Item α)) : Option String × Option ℚ :=
  selectGo α now l (none, none)

/-- `evictLRU()`: return unchanged on an empty cache; otherwise scan for
the minimal score and delete the found key.  The final test
`if (lruKey)` is JavaScript truthiness: it fails both for `null` (no
finite score ever beat `Infinity`) and for the empty-string key, in
which cases nothing is deleted. -/
def evictLRU (α) (now : Int) (c : State α) : State α :=
  if c.items.length = 0 then c
  else
    match (selectLRU α now c.items).1 with
    | some k => if k = "" then c else { c with items := mapDelete (Item α) k c.items }
    | none => c

/-- The `while (this.shouldEvict()) this.evictLRU()` loop of `set`,
with explicit fuel; `none` means the fuel ran out with the limits still
exceeded.  Since the loop body is deterministic and the state is finite,
the loop either terminates within `items.length + 1` iterations (each
productive iteration removes at least one item) or repeats a fixed point
forever, so fuel `items.length + 1` decides termination exactly. -/
def evictLoop (α) (now : Int) : Nat → State α → Option (State α)
  | 0, c => if shouldEvict α c then none else some c
  | n + 1, c => if shouldEvict α c then evictLoop α now n (evictLRU α now c) else some c

/-- `set(key, data, ttl = 30 * 60 * 1000)`.  `sz` is the byte size
`calculateSize(data)` (a measurement of the serialised data, passed
explicitly).  An item larger than `maxSize * 0.1` is not cached at all;
otherwise the eviction loop runs and the item is stored with fresh
statistics.  The result is `none` exactly when the eviction loop never
exits (see `evictLoop`). -/
def set (α) (now : Int) (key : String) (data : α) (sz : Nat) (ttl : Int) (c : State α) :
    Option (State α) :=
  if (sz : ℚ) > (c.maxSize : ℚ) * (1 / 10) then some c
  else
    match evictLoop α now (c.items.length + 1) c with
    | none => none
    | some c' =>
        some { c' with items := mapInsert (Item α) key ⟨data, now, ttl, 0, sz⟩ c'.items }

/-- `get(key)`: a missing key counts a miss; an expired item
(`Date.now() - item.timestamp > item.ttl`) is deleted and counts a miss;
a live item is returned, its `hits` incremented and its `timestamp`
refreshed to `Date.now()` (and the global `hits` counter incremented). -/
def get (α) (now : Int) (key : String) (c : State α) : Option α × State α :=
  match mapLookup (Item α) key c.items with
  | none => (none, { c with misses := c.misses + 1 })
  | some item =>
      if item.ttl < now - item.timestamp then
        (none, { c with items := mapDelete (Item α) key c.items, misses := c.misses + 1 })
      else
        (some item.data,
         { c with
             items := mapUpdate (Item α) key
               (fun it => { it with hits := it.hits + 1, timestamp := now }) c.items,
             hits := c.hits + 1 })

/-- `this.tags.get(tag)!.add(key)` plus the `this.tags.set(tag, new Set())`
initialisation: register `key` under `tag` (a `Set` ignores duplicates). -/
def tagAdd (tag key : String) (l : List (String × List String)) :
    List (String × List String) :=
  if l.any (fun kv => kv.1 = tag) then
    mapUpdate (List String) tag (fun ks => if key ∈ ks then ks else ks ++ [key]) l
  else
    l ++ [(tag, [key])]

/-- `setWithTags(key, data, tags, ttl?)`: a plain `set` (an omitted `ttl`
falls back to the 30-minute default) followed by registration of `key`
under each tag — note the registration happens even when `set` skipped
caching the item. -/
def setWithTags (α) (now : Int) (key : String) (data : α) (sz : Nat)
    (tagList : List String) (ttl : Option Int) (c : State α) : Option (State α) :=
  match set α now key data sz (ttl.getD (30 * 60 * 1000)) c with
  | none => none
  | some c' => some { c' with tags := tagList.foldl (fun ts tag => tagAdd tag key ts) c'.tags }

/-- `invalidateByTag(tag)`: delete from the cache every key registered
under `tag`, then drop the tag set itself. -/
def invalidateByTag (α) (tag : String) (c : State α) : State α :=
  match mapLookup (List String) tag c.tags with
  | none => c
  | some keys =>
      { c with
          items := keys.foldl (fun its k => mapDelete (Item α) k its) c.items,
          tags := mapDelete (List String) tag c.tags }

end IntelligentCache

/-! ## The zustand diary store (`useDiaryStore`, rich variant) -/

/-- `a.includes(b)` on JavaScript strings: substring test. -/
def strIncludes (s sub : String) : Bool := decide (sub.data <:+: s.data)

/-- `SearchFilters` of the diary store. -/
structure SearchFilters where
  query : Option String
  tags : Option (List String)
  mood : Option MoodType
  dateFrom : Option Int
  dateTo : Option Int
  isPrivate : Option Bool
  isFavorite : Option Bool

/-- `applyFilters(entries, filters)`: the successive `filtered = filtered
.filter(...)` passes.  The `if (filters.query)` guard is JavaScript
truthiness, so an empty query string disables the text search; `Date`
filter values are always truthy objects. -/
def applyFilters (entries : List DiaryEntry) (filters : SearchFilters) : List DiaryEntry :=
  let l1 := match filters.query with
    | none => entries
    | some q =>
        if q = "" then entries
        else
          let ql := q.toLower
          entries.filter (fun e =>
            strIncludes e.title.toLower ql ||
            strIncludes e.content.toLower ql ||
            (match e.location with | some loc => strIncludes loc.toLower ql | none => false) ||
            (match e.weather with | some w => strIncludes w.toLower ql | none => false))
  let l2 := match filters.tags with
    | none => l1
    | some ts =>
        if ts.length = 0 then l1
        else l1.filter (fun e => ts.any (fun tag => e.tags.contains tag))
  let l3 := match filters.mood with
    | none => l2
    | some m => l2.filter (fun e => e.mood = some m)
  let l4 := match filters.dateFrom with
    | none => l3
    | some d => l3.filter (fun e => d ≤ e.date)
  let l5 := match filters.dateTo with
    | none => l4
    | some d => l4.filter (fun e => e.date ≤ d)
  let l6 := match filters.isPrivate with
    | none => l5
    | some b => l5.filter (fun e => e.isPrivate = b)
  match filters.isFavorite with
  | none => l6
  | some b => l6.filter (fun e => e.isFavorite = b)

/-- The index order of `orderBy('date')`. -/
def dateLe (a b : DiaryEntry) : Prop := a.date ≤ b.date

instance : DecidableRel dateLe := fun a b => Int.decLe a.date b.date

instance : IsTotal DiaryEntry dateLe := ⟨fun a b => Int.le_total a.date b.date⟩

instance : IsTrans DiaryEntry dateLe := ⟨fun _ _ _ h h' => le_trans h h'⟩

/-- `db.diaryEntries.orderBy('date').reverse().toArray()`: the table
contents sorted ascending on the `date` index, then reversed. -/
def fetchList (t : List DiaryEntry) : List DiaryEntry :=
  (List.insertionSort dateLe t).reverse

/-- The state held by the zustand store. -/
structure StoreState where
  entries : List DiaryEntry
  filteredEntries : List DiaryEntry
  loading : Bool
  error : Option String
  currentFilters : SearchFilters

namespace DiaryStore

/-- The successful body of `fetchEntries`: read the sorted table, refilter
with the current filters, clear `loading`. -/
def fetchApply (db : DB) (s : StoreState) : StoreState :=
  let l := fetchList db.entries
  { s with
    entries := l,
    filteredEntries := applyFilters l s.currentFilters,
    loading := false }

/-- `fetchEntries()`.  `ok` is whether the underlying
`db.diaryEntries...toArray()` call succeeds; on failure the `catch`
stores the fixed error string and clears `loading`, touching nothing
else. -/
def fetchEntries (ok : Bool) (db : DB) (s : StoreState) : StoreState :=
  let s1 := { s with loading := true, error := none }
  if ok then fetchApply db s1
  else { s1 with error := some "Failed to fetch diary entries", loading := false }

/-- The payload of `addEntry`: `Omit<DiaryEntry, 'id' | 'createdAt' |
'updatedAt'>`.  (The defensive `entryData.tags || []` etc. defaults in
the source are identities on well-typed payloads: `[]`, `0` and `false`
are their own defaults.) -/
structure EntryInput where
  title : String
  content : String
  date : Int
  categoryId : Option Nat
  mood : Option MoodType
  weather : Option String
  location : Option String
  tags : List String
  wordCount : Nat
  readingTime : Nat
  isPrivate : Bool
  isFavorite : Bool
  templateUsed : Option String
  linkedEntryIds : Option (List Nat)
  syncStatus : SyncStatus
  lastSyncedAt : Option Int
  conflictVersion : Option DiaryEntry
  deviceId : String
  version : Nat

/-- The record built inside `addEntry` before `db.diaryEntries.add`:
the payload plus `createdAt = updatedAt = now` (and no `id` yet). -/
def mkNewEntry (input : EntryInput) (now : Int) : DiaryEntry :=
  .mk { id := none, title := input.title, content := input.content, date := input.date,
        categoryId := input.categoryId, mood := input.mood, weather := input.weather,
        location := input.location, tags := input.tags, wordCount := input.wordCount,
        readingTime := input.readingTime, isPrivate := input.isPrivate,
        isFavorite := input.isFavorite, templateUsed := input.templateUsed,
        linkedEntryIds := input.linkedEntryIds, syncStatus := input.syncStatus,
        lastSyncedAt := input.lastSyncedAt, conflictVersion := input.conflictVersion,
        deviceId := input.deviceId, version := input.version,
        createdAt := now, updatedAt := now }

/-- `addEntry(entryData)`: build the record, `add` it, then re-`fetch`.
`addOk` is whether the `add` succeeds, `fetchOk` whether the re-read
succeeds (the inner `fetchEntries` catches its own failure, so
`addEntry`'s `catch` fires only for the `add`).  The trailing
streak-milestone `setTimeout` only drives notifications. -/
def addEntry (input : EntryInput) (now : Int) (addOk fetchOk : Bool)
    (db : DB) (s : StoreState) : DB × StoreState :=
  let s1 := { s with loading := true, error := none }
  if addOk then
    let db' := db.addEntry (mkNewEntry input now)
    if fetchOk then (db', fetchApply db' s1)
    else (db', { s1 with error := some "Failed to fetch diary entries", loading := false })
  else (db, { s1 with error := some "Failed to add diary entry", loading := false })

/-- `updateEntry(id, entryData)`: the partial update `{...entryData,
updatedAt: new Date()}` is modelled as an arbitrary record transformation
`patch` followed by the forced `updatedAt`; it is applied to the record
with primary key `eid` (a Dexie no-op when absent). -/
def updateEntry (eid : Nat) (patch : DiaryEntry → DiaryEntry) (now : Int)
    (updOk fetchOk : Bool) (db : DB) (s : StoreState) : DB × StoreState :=
  let s1 := { s with loading := true, error := none }
  if updOk then
    let db' := { db with
      entries := DB.updateEntry db.entries eid
        (fun e => DiaryEntry.mk { (patch e).fields with updatedAt := now }) }
    if fetchOk then (db', fetchApply db' s1)
    else (db', { s1 with error := some "Failed to fetch diary entries", loading := false })
  else (db, { s1 with error := some "Failed to update diary entry", loading := false })

/-- `deleteEntry(id)`: delete by primary key, then re-`fetch`. -/
def deleteEntry (eid : Nat) (delOk fetchOk : Bool) (db : DB) (s : StoreState) :
    DB × StoreState :=
  let s1 := { s with loading := true, error := none }
  if delOk then
    let db' := db.deleteEntry eid
    if fetchOk then (db', fetchApply db' s1)
    else (db', { s1 with error := some "Failed to fetch diary entries", loading := false })
  else (db, { s1 with error := some "Failed to delete diary entry", loading := false })

end DiaryStore

/-! ## Export (`exportEntries` of the diary store) -/

/-- Civil date from days since the Unix epoch (proleptic Gregorian,
Hinnant's algorithm), as used by `Date.prototype.toISOString`. -/
def civilFromDays (z0 : Int) : Int × Int × Int :=
  let z := z0 + 719468
  let era := Int.ediv z 146097
  let doe := z - era * 146097
  let yoe := Int.ediv (doe - Int.ediv doe 1460 + Int.ediv doe 36524 - Int.ediv doe 146096) 365
  let y := yoe + era * 400
  let doy := doe - (365 * yoe + Int.ediv yoe 4 - Int.ediv yoe 100)
  let mp := Int.ediv (5 * doy + 2) 153
  let d := doy - Int.ediv (153 * mp + 2) 5 + 1
  let m := mp + (if mp < 10 then 3 else -9)
  (y + (if m ≤ 2 then 1 else 0), m, d)

def padZeros (width : Nat) (n : Int) : String :=
  let s := toString n
  if s.length < width then String.mk (List.replicate (width - s.length) '0') ++ s else s

/-- `date.toISOString().split('T')[0]`: the `YYYY-MM-DD` part, in UTC.
(Years in `0..9999`; the extended ±YYYYYY forms of ECMA-262 are outside
the modelled range.) -/
def isoDateDay (ms : Int) : String :=
  let p := civilFromDays (Int.ediv ms 86400000)
  padZeros 4 p.1 ++ "-" ++ padZeros 2 p.2.1 ++ "-" ++ padZeros 2 p.2.2

/-- `date.toISOString()`: the full UTC timestamp, as `JSON.stringify`
renders a `Date`. -/
def isoDateTime (ms : Int) : String :=
  let tod := Int.emod ms 86400000
  isoDateDay ms ++ "T" ++ padZeros 2 (Int.ediv tod 3600000) ++ ":" ++
    padZeros 2 (Int.emod (Int.ediv tod 60000) 60) ++ ":" ++
    padZeros 2 (Int.emod (Int.ediv tod 1000) 60) ++ "." ++
    padZeros 3 (Int.emod tod 1000) ++ "Z"

/-- Replacement of all leftmost non-overlapping occurrences of `pat` by
`rep`, on character lists; the recursion is structural on a fuel counter
(one unit per examined character) so that the kernel can evaluate it.
With `fuel = l.length` it is total; an empty pattern matches nothing. -/
def replChars (pat rep : List Char) : Nat → List Char → List Char
  | _, [] => []
  | 0, l => l
  | fuel + 1, c :: rest =>
      if pat ≠ [] ∧ pat.isPrefixOf (c :: rest) then
        rep ++ replChars pat rep fuel (List.drop (pat.length - 1) rest)
      else
        c :: replChars pat rep fuel rest

/-- `s.replace(/pat/g, rep)` on JavaScript strings (for the literal
patterns used by the export code). -/
def strReplace (s pat rep : String) : String :=
  String.mk (replChars pat.data rep.data s.data.length s.data)

/-- JSON string escaping (the common escapes; other control characters do
not occur in the modelled data). -/
def jsonEscape (s : String) : String :=
  strReplace (strReplace (strReplace (strReplace (strReplace s
    "\\" "\\\\") "\"" "\\\"") "\n" "\\n") "\r" "\\r") "\t" "\\t"

def jsonStr (s : String) : String := "\"" ++ jsonEscape s ++ "\""

/-- Two-space indentation of `JSON.stringify(_, null, 2)` at depth `d`. -/
def indentStr (d : Nat) : String := String.mk (List.replicate (2 * d) ' ')

/-- A JSON array of pre-rendered scalar items at depth `d`
(`JSON.stringify(_, null, 2)` layout). -/
def jsonArr (d : Nat) (items : List String) : String :=
  if items.length = 0 then "[]"
  else
    "[\n" ++ String.intercalate (",\n") (items.map (fun s => indentStr (d + 1) ++ s)) ++
      "\n" ++ indentStr d ++ "]"

/-- `JSON.stringify(entry, null, 2)` at depth `d`, with the fields in the
declaration order of the `DiaryEntry` interface and `undefined` fields
omitted (Dexie stores `Date`s, which serialise via `toISOString`). -/
def DiaryEntry.json (d : Nat) : DiaryEntry → String
  | .mk ⟨id, title, content, date, categoryId, mood, weather, location, tags, wordCount,
      readingTime, isPrivate, isFavorite, templateUsed, linkedEntryIds, syncStatus,
      lastSyncedAt, conflictVersion, deviceId, version, createdAt, updatedAt⟩ =>
    let fields : List (Option (String × String)) :=
      [ id.map (fun n => ("id", toString n)),
        some ("title", jsonStr title),
        some ("content", jsonStr content),
        some ("date", jsonStr (isoDateTime date)),
        categoryId.map (fun n => ("categoryId", toString n)),
        mood.map (fun m => ("mood", jsonStr m.str)),
        weather.map (fun w => ("weather", jsonStr w)),
        location.map (fun loc => ("location", jsonStr loc)),
        some ("tags", jsonArr (d + 1) (tags.map jsonStr)),
        some ("wordCount", toString wordCount),
        some ("readingTime", toString readingTime),
        some ("isPrivate", if isPrivate then "true" else "false"),
        some ("isFavorite", if isFavorite then "true" else "false"),
        templateUsed.map (fun t => ("templateUsed", jsonStr t)),
        linkedEntryIds.map (fun ls => ("linkedEntryIds", jsonArr (d + 1) (ls.map toString))),
        some ("syncStatus", jsonStr syncStatus.str),
        lastSyncedAt.map (fun t => ("lastSyncedAt", jsonStr (isoDateTime t))),
        (match conflictVersion with
         | none => none
         | some e => some ("conflictVersion", e.json (d + 1))),
        some ("deviceId", jsonStr deviceId),
        some ("version", toString version),
        some ("createdAt", jsonStr (isoDateTime createdAt)),
        some ("updatedAt", jsonStr (isoDateTime updatedAt)) ]
    let rendered := (fields.filterMap (fun o => o)).map
      (fun kv => indentStr (d + 1) ++ jsonStr kv.1 ++ ": " ++ kv.2)
    "\x7b\n" ++ String.intercalate (",\n") rendered ++ "\n" ++ indentStr d ++ "\x7d"

/-- `JSON.stringify(entries, null, 2)` for the `'json'` export branch. -/
def jsonOfEntries (entries : List DiaryEntry) : String :=
  if entries.length = 0 then "[]"
  else
    "[\n" ++
      String.intercalate (",\n") (entries.map (fun e => indentStr 1 ++ e.json 1)) ++
      "\n]"

/-- `replace(/"/g, '""')`: CSV double-quote doubling. -/
def csvEscapeQ (s : String) : String := strReplace s "\"" "\"\""

/-- The header cells of the `'csv'` branch. -/
def csvHeaders : List String :=
  ["Date", "Title", "Content", "Mood", "Tags", "Location", "Weather",
   "Word Count", "Private", "Favorite"]

/-- One CSV data row: `Date` is the ISO day; `Title`, `Content` and the
joined tag list are wrapped in double quotes; quotes inside `Title` and
`Content` are doubled and newlines inside `Content` become the two
characters `\n`; missing `Mood`/`Location`/`Weather` render empty. -/
def csvRow (e : DiaryEntry) : String :=
  String.intercalate ","
    [ isoDateDay e.date,
      "\"" ++ csvEscapeQ e.title ++ "\"",
      "\"" ++ strReplace (csvEscapeQ e.content) "\n" "\\n" ++ "\"",
      (match e.mood with | some m => m.str | none => ""),
      "\"" ++ String.intercalate ", " e.tags ++ "\"",
      e.location.getD "",
      e.weather.getD "",
      toString e.wordCount,
      (if e.isPrivate then "true" else "false"),
      (if e.isFavorite then "true" else "false") ]

/-- The `'markdown'` branch template for one entry
(`toLocaleDateString()` is locale-dependent in JavaScript; it is modelled
as the ISO day). -/
def markdownOf (e : DiaryEntry) : String :=
  let tags := if e.tags.length > 0 then
      "\n**Tags:** " ++ String.intercalate " " (e.tags.map (fun t => "#" ++ t))
    else ""
  let mood := match e.mood with | some m => "\n**Mood:** " ++ m.str | none => ""
  let location := match e.location with | some l => "\n**Location:** " ++ l | none => ""
  let weather := match e.weather with | some w => "\n**Weather:** " ++ w | none => ""
  "# " ++ e.title ++ "\n\n**Date:** " ++ isoDateDay e.date ++ mood ++ location ++
    weather ++ tags ++ "\n\n---\n\n" ++ e.content ++ "\n\n---\n*Word count: " ++
    toString e.wordCount ++ " | Reading time: " ++ toString e.readingTime ++ " min*\n\n"

/-- The `switch (format)` body of `exportEntries`, applied to the list of
entries selected for export.  The `format` is a string: the TS union type
does not exist at runtime and the `default` branch throws
`'Unsupported export format'`. -/
def exportList (format : String) (entries : List DiaryEntry) : Except String String :=
  if format = "json" then .ok (jsonOfEntries entries)
  else if format = "csv" then
    .ok (String.intercalate "\n"
      (String.intercalate "," csvHeaders :: entries.map csvRow))
  else if format = "markdown" then
    .ok (String.intercalate "\n\n" (entries.map markdownOf))
  else .error "Unsupported export format"

/-- `exportEntries(format)` of the diary store: export the filtered
entries, falling back to all entries when the filtered list is empty
(`filteredEntries.length > 0 ? filteredEntries : get().entries`). -/
def DiaryStore.exportEntries (format : String) (s : StoreState) : Except String String :=
  exportList format (if s.filteredEntries.length > 0 then s.filteredEntries else s.entries)

/-! ### Concrete states used by witnesses and counterexamples -/

/-- Concrete cache used to witness `cache_get_ttl_expiry`: at time 5000,
key `"a"` (timestamp 4000, ttl 30000) is live, key `"b"` (timestamp 0,
ttl 10) has expired, and key `"c"` is absent. -/
def cacheW : IntelligentCache.State Nat :=
  { items := [("a", ⟨7, 4000, 30000, 0, 1⟩), ("b", ⟨8, 0, 10, 0, 1⟩)],
    tags := [], maxSize := 100, maxItems := 100, hits := 0, misses := 0 }

/-- Concrete cache used to witness `cache_tag_invalidation`: keys `"x"`
and `"y"` cached, `"x"` registered under tag `"t"`. -/
def tagCacheW : IntelligentCache.State Nat :=
  { items := [("x", ⟨1, 0, 1000, 0, 1⟩), ("y", ⟨2, 0, 1000, 0, 1⟩)],
    tags := [("t", ["x"])], maxSize := 100, maxItems := 10, hits := 0, misses := 0 }

/-- The state reached from `tagCacheW` by `setWithTags "z" 9 ["t2"]`. -/
def tagCacheW' : IntelligentCache.State Nat :=
  { items := [("x", ⟨1, 0, 1000, 0, 1⟩), ("y", ⟨2, 0, 1000, 0, 1⟩),
              ("z", ⟨9, 50, 1800000, 0, 1⟩)],
    tags := [("t", ["x"]), ("t2", ["z"])],
    maxSize := 100, maxItems := 10, hits := 0, misses := 0 }

/-- A non-empty cache whose single item sits under the empty-string key
(finite score: age 60 s, 3 hits). -/
def lruStuckCache : IntelligentCache.State Nat :=
  { items := [("", ⟨5, 0, 2000, 3, 2⟩)], tags := [], maxSize := 500000, maxItems := 10,
    hits := 0, misses := 0 }

/-- Cache witnessing `evictLRU_removes_min`: at time 60000 the item under
`"a"` has age 0 (non-finite score) and the one under `"b"` has a finite
score, so the scan selects `"b"`. -/
def lruWitnessCache : IntelligentCache.State Nat :=
  { items := [("a", ⟨1, 60000, 1000, 0, 1⟩), ("b", ⟨2, 0, 1000, 1, 1⟩)], tags := [],
    maxSize := 500000, maxItems := 10, hits := 0, misses := 0 }

/-- A cache over its item limit whose single item sits under the
empty-string key: `shouldEvict` holds but `evictLRU` removes nothing. -/
def setStuckCache : IntelligentCache.State Nat :=
  { items := [("", ⟨0, 0, 1000, 1, 1⟩)], tags := [], maxSize := 1000000, maxItems := 1,
    hits := 0, misses := 0 }

/-! ## Theorems -/

/-- Claim C3: the sync queue retries with exponential backoff.  Every item
enqueued by `addToQueue` starts with `retryCount = 0` and `maxRetries = 3`.
In a `processQueue` run, a failing item with `retryCount < maxRetries` is
kept in the queue with `retryCount` incremented and a retry is scheduled
after exactly `2 ^ retryCount * 1000` milliseconds (`retryCount` being the
just-incremented count, as in `scheduleRetry`); a failing item whose
`retryCount` has reached `maxRetries` is dropped from the queue and no
retry is scheduled for it. -/
theorem processQueue_exponential_backoff :
    (∀ ty entryId data idStr now,
      (addToQueue ty entryId data idStr now).retryCount = 0 ∧
      (addToQueue ty entryId data idStr now).maxRetries = 3) ∧
    (∀ (fails : SyncQueueItem → Bool) (q : List SyncQueueItem),
      (processQueue fails q).1 = q.filterMap (fun it =>
        if fails it = true ∧ it.retryCount < it.maxRetries then
          some { it with retryCount := it.retryCount + 1 }
        else none) ∧
      (processQueue fails q).2 = q.filterMap (fun it =>
        if fails it = true ∧ it.retryCount < it.maxRetries then
          some (it.id, 2 ^ (it.retryCount + 1) * 1000)
        else none)) := by
  refine ⟨fun _ _ _ _ _ => ⟨rfl, rfl⟩, fun fails q => ?_⟩
  induction q with
  | nil => exact ⟨rfl, rfl⟩
  | cons it rest ih =>
      by_cases hf : fails it <;> by_cases hr : it.retryCount < it.maxRetries <;>
        simp [processQueue, hf, hr, ih.1, ih.2]

/-- Claim C9: `exportEntries` exports the filtered entries, but silently
falls back to exporting all entries whenever `filteredEntries` is empty,
so an export performed under a filter matching nothing contains every
entry. -/
theorem exportEntries_empty_filter_fallback :
    ∀ (entries : List DiaryEntry) (loading : Bool) (error : Option String)
      (filters : SearchFilters) (format : String),
      DiaryStore.exportEntries format
        { entries := entries, filteredEntries := [], loading := loading,
          error := error, currentFilters := filters } =
        exportList format entries :=
  fun _ _ _ _ _ => rfl

/-- Claim C5: every diary-store operation catches its storage failure
instead of throwing (the model is total), stores the operation's fixed
error string in `error`, clears `loading`, and leaves the store's entries
(and the database) unchanged. -/
theorem store_ops_error_handling :
    ∀ (db : DB) (s : StoreState) (input : DiaryStore.EntryInput) (now : Int)
      (eid : Nat) (patch : DiaryEntry → DiaryEntry) (fOk : Bool),
      ((DiaryStore.fetchEntries false db s).error = some "Failed to fetch diary entries" ∧
       (DiaryStore.fetchEntries false db s).loading = false ∧
       (DiaryStore.fetchEntries false db s).entries = s.entries) ∧
      ((DiaryStore.addEntry input now false fOk db s).2.error =
          some "Failed to add diary entry" ∧
       (DiaryStore.addEntry input now false fOk db s).2.loading = false ∧
       (DiaryStore.addEntry input now false fOk db s).2.entries = s.entries ∧
       (DiaryStore.addEntry input now false fOk db s).1 = db) ∧
      ((DiaryStore.updateEntry eid patch now false fOk db s).2.error =
          some "Failed to update diary entry" ∧
       (DiaryStore.updateEntry eid patch now false fOk db s).2.loading = false ∧
       (DiaryStore.updateEntry eid patch now false fOk db s).2.entries = s.entries ∧
       (DiaryStore.updateEntry eid patch now false fOk db s).1 = db) ∧
      ((DiaryStore.deleteEntry eid false fOk db s).2.error =
          some "Failed to delete diary entry" ∧
       (DiaryStore.deleteEntry eid false fOk db s).2.loading = false ∧
       (DiaryStore.deleteEntry eid false fOk db s).2.entries = s.entries ∧
       (DiaryStore.deleteEntry eid false fOk db s).1 = db) :=
  fun _ _ _ _ _ _ _ =>
    ⟨⟨rfl, rfl, rfl⟩, ⟨rfl, rfl, rfl, rfl⟩, ⟨rfl, rfl, rfl, rfl⟩, ⟨rfl, rfl, rfl, rfl⟩⟩

/-- Claim C1: processing a sync-queue item only touches the local store.
A `'delete'` item leaves the `diaryEntries` table unchanged (the delete is
commented out in `syncDelete`); a `'create'` or `'update'` item with a
present (truthy) `entryId` and `data` rewrites, when the entry exists,
exactly the record with that primary key by `syncPatch`, which sets only
`syncStatus`, `lastSyncedAt` and `updatedAt` and preserves every other
field; all other records are untouched (`DB.updateEntry` maps the rest
identically). -/
theorem syncItem_local_frame :
    ∀ (now ts : Int) (idStr : String) (rc mr : Nat) (oe : Option Nat)
      (od : Option DiaryEntry) (eid : Nat) (d : DiaryEntry) (t : List DiaryEntry),
      (syncItem now ⟨idStr, .delete, oe, od, ts, rc, mr⟩ t = t) ∧
      (syncItem now ⟨idStr, .create, some (eid + 1), some d, ts, rc, mr⟩ t =
        (if (DB.getEntry t (eid + 1)).isSome then
          DB.updateEntry t (eid + 1) (syncPatch now) else t)) ∧
      (syncItem now ⟨idStr, .update, some (eid + 1), some d, ts, rc, mr⟩ t =
        (if (DB.getEntry t (eid + 1)).isSome then
          DB.updateEntry t (eid + 1) (syncPatch now) else t)) ∧
      (∀ e : DiaryEntry,
        (syncPatch now e).syncStatus = .synced ∧
        (syncPatch now e).lastSyncedAt = some now ∧
        (syncPatch now e).updatedAt = now ∧
        (syncPatch now e).id = e.id ∧
        (syncPatch now e).title = e.title ∧
        (syncPatch now e).content = e.content ∧
        (syncPatch now e).date = e.date ∧
        (syncPatch now e).categoryId = e.categoryId ∧
        (syncPatch now e).mood = e.mood ∧
        (syncPatch now e).weather = e.weather ∧
        (syncPatch now e).location = e.location ∧
        (syncPatch now e).tags = e.tags ∧
        (syncPatch now e).wordCount = e.wordCount ∧
        (syncPatch now e).readingTime = e.readingTime ∧
        (syncPatch now e).isPrivate = e.isPrivate ∧
        (syncPatch now e).isFavorite = e.isFavorite ∧
        (syncPatch now e).templateUsed = e.templateUsed ∧
        (syncPatch now e).linkedEntryIds = e.linkedEntryIds ∧
        (syncPatch now e).conflictVersion = e.conflictVersion ∧
        (syncPatch now e).deviceId = e.deviceId ∧
        (syncPatch now e).version = e.version ∧
        (syncPatch now e).createdAt = e.createdAt) := by
  intro now ts idStr rc mr oe od eid d t
  refine ⟨?_, ?_, ?_, ?_⟩
  · cases oe with
    | none => rfl
    | some n =>
        by_cases hn : n = 0 <;> simp [syncItem, syncDelete, hn]
  · cases hget : DB.getEntry t (eid + 1) <;>
      simp [syncItem, syncEntry, hget, Nat.succ_ne_zero]
  · cases hget : DB.getEntry t (eid + 1) <;>
      simp [syncItem, syncEntry, hget, Nat.succ_ne_zero]
  · intro e
    cases e with
    | mk f =>
        exact ⟨rfl, rfl, rfl, rfl, rfl, rfl, rfl, rfl, rfl, rfl, rfl, rfl, rfl, rfl,
          rfl, rfl, rfl, rfl, rfl, rfl, rfl, rfl⟩

namespace IntelligentCache

/-- Unfolding step for `mapLookup` on a cons cell. -/
theorem mapLookup_cons (β : Type) (k : String) (x : String × β) (l : List (String × β)) :
    mapLookup β k (x :: l) = if x.1 = k then some x.2 else mapLookup β k l := by
  by_cases h : x.1 = k <;> simp [mapLookup, List.find?_cons, h]

/-- The element rewritten by `mapUpdate` keeps its key. -/
theorem mapUpdate_key (β : Type) (k : String) (f : β → β) (kv : String × β) :
    (if kv.1 = k then (kv.1, f kv.2) else kv).1 = kv.1 := by
  split <;> rfl

/-- Looking a key up after an in-place update of that key sees the
updated value. -/
theorem mapLookup_mapUpdate (β : Type) (key : String) (f : β → β)
    (l : List (String × β)) :
    mapLookup β key (mapUpdate β key f l) = (mapLookup β key l).map f := by
  induction l with
  | nil => rfl
  | cons kv rest ih =>
      simp only [mapUpdate, List.map_cons] at ih ⊢
      rw [mapLookup_cons, mapLookup_cons, mapUpdate_key]
      by_cases hkv : kv.1 = key
      · simp [hkv]
      · simp only [hkv, if_false]
        exact ih

/-- `mapUpdate` on one key does not disturb lookups of another key. -/
theorem mapLookup_mapUpdate_other (β : Type) (k k' : String) (h : k' ≠ k) (f : β → β)
    (l : List (String × β)) :
    mapLookup β k' (mapUpdate β k f l) = mapLookup β k' l := by
  induction l with
  | nil => rfl
  | cons kv rest ih =>
      simp only [mapUpdate, List.map_cons] at ih ⊢
      rw [mapLookup_cons, mapLookup_cons, mapUpdate_key]
      by_cases hkv : kv.1 = k'
      · have hnk : ¬ kv.1 = k := fun hh => h (hkv ▸ hh ▸ rfl)
        simp [hkv, hnk, h]
      · simp only [hkv, if_false]
        exact ih

/-- Unfolding step for `mapDelete` on a cons cell. -/
theorem mapDelete_cons (β : Type) (k : String) (x : String × β) (l : List (String × β)) :
    mapDelete β k (x :: l) =
      if x.1 = k then mapDelete β k l else x :: mapDelete β k l := by
  by_cases h : x.1 = k <;> simp [mapDelete, List.filter_cons, h]

/-- Deleting a key removes it from lookups. -/
theorem mapLookup_mapDelete_self (β : Type) (k : String) (l : List (String × β)) :
    mapLookup β k (mapDelete β k l) = none := by
  induction l with
  | nil => rfl
  | cons kv rest ih =>
      rw [mapDelete_cons]
      by_cases hkv : kv.1 = k
      · rw [if_pos hkv]; exact ih
      · rw [if_neg hkv, mapLookup_cons, if_neg hkv]; exact ih

/-- Deleting one key does not disturb lookups of another key. -/
theorem mapLookup_mapDelete_other (β : Type) (k k' : String) (h : k' ≠ k)
    (l : List (String × β)) :
    mapLookup β k' (mapDelete β k l) = mapLookup β k' l := by
  induction l with
  | nil => rfl
  | cons kv rest ih =>
      rw [mapDelete_cons]
      by_cases hkv : kv.1 = k
      · have hnk : ¬ kv.1 = k' := fun hh => h (hh ▸ hkv)
        rw [if_pos hkv, ih, mapLookup_cons, if_neg hnk]
      · rw [if_neg hkv, mapLookup_cons, mapLookup_cons, ih]

/-- A key absent from a map stays absent after any delete. -/
theorem mapLookup_mapDelete_none (β : Type) (k k' : String) (l : List (String × β))
    (h : mapLookup β k' l = none) :
    mapLookup β k' (mapDelete β k l) = none := by
  by_cases hk : k' = k
  · subst hk; exact mapLookup_mapDelete_self β k' l
  · rw [mapLookup_mapDelete_other β k k' hk l]; exact h

/-- A key absent from a map stays absent after folding deletes. -/
theorem foldDelete_none (β : Type) (key : String) :
    ∀ (ks : List String) (its : List (String × β)),
      mapLookup β key its = none →
      mapLookup β key (ks.foldl (fun a k => mapDelete β k a) its) = none := by
  intro ks
  induction ks with
  | nil => exact fun its h => h
  | cons k rest ih =>
      intro its h
      exact ih (mapDelete β k its) (mapLookup_mapDelete_none β k key its h)

/-- Folding deletes over a key list removes every key in the list. -/
theorem foldDelete_mem (β : Type) (key : String) :
    ∀ (ks : List String) (its : List (String × β)), key ∈ ks →
      mapLookup β key (ks.foldl (fun a k => mapDelete β k a) its) = none := by
  intro ks
  induction ks with
  | nil => intro its h; cases h
  | cons k rest ih =>
      intro its h
      by_cases hk : key = k
      · subst hk
        exact foldDelete_none β key rest (mapDelete β key its)
          (mapLookup_mapDelete_self β key its)
      · have : key ∈ rest := by
          cases h with
          | head => exact absurd rfl hk
          | tail _ hh => exact hh
        exact ih (mapDelete β k its) this

/-- Folding deletes over a key list leaves other keys untouched. -/
theorem foldDelete_not_mem (β : Type) (key : String) :
    ∀ (ks : List String) (its : List (String × β)), key ∉ ks →
      mapLookup β key (ks.foldl (fun a k => mapDelete β k a) its) =
        mapLookup β key its := by
  intro ks
  induction ks with
  | nil => intro its _; rfl
  | cons k rest ih =>
      intro its h
      have hk : key ≠ k := fun hh => h (hh ▸ List.mem_cons_self k rest)
      have hrest : key ∉ rest := fun hh => h (List.mem_cons_of_mem k hh)
      rw [List.foldl_cons, ih (mapDelete β k its) hrest,
        mapLookup_mapDelete_other β k key hk its]

/-- In a map, `any (·.1 = k)` failing means the lookup misses. -/
theorem mapLookup_none_of_any_false (β : Type) (k : String) (l : List (String × β))
    (h : l.any (fun kv => kv.1 = k) = false) :
    mapLookup β k l = none := by
  induction l with
  | nil => rfl
  | cons kv rest ih =>
      simp only [List.any_cons, Bool.or_eq_false_iff] at h
      have hkv : ¬ kv.1 = k := by simpa using h.1
      rw [mapLookup_cons, if_neg hkv]
      exact ih h.2

/-- In a map, `any (·.1 = k)` succeeding means the lookup hits. -/
theorem mapLookup_some_of_any_true (β : Type) (k : String) (l : List (String × β))
    (h : l.any (fun kv => kv.1 = k) = true) :
    ∃ v, mapLookup β k l = some v := by
  induction l with
  | nil => cases h
  | cons kv rest ih =>
      by_cases hkv : kv.1 = k
      · exact ⟨kv.2, by rw [mapLookup_cons, if_pos hkv]⟩
      · simp only [List.any_cons] at h
        have hrest : rest.any (fun kv => kv.1 = k) = true := by
          cases Bool.or_eq_true_iff.mp h with
          | inl hh => exact absurd (by simpa using hh) hkv
          | inr hh => exact hh
        obtain ⟨v, hv⟩ := ih hrest
        exact ⟨v, by rw [mapLookup_cons, if_neg hkv]; exact hv⟩

/-- A hit in the left part of an appended map is a hit overall. -/
theorem mapLookup_append_some (β : Type) (k : String) (l l₂ : List (String × β)) (v : β)
    (h : mapLookup β k l = some v) :
    mapLookup β k (l ++ l₂) = some v := by
  induction l with
  | nil => simp [mapLookup] at h
  | cons kv rest ih =>
      rw [List.cons_append, mapLookup_cons]
      rw [mapLookup_cons] at h
      by_cases hkv : kv.1 = k
      · rw [if_pos hkv] at h ⊢; exact h
      · rw [if_neg hkv] at h ⊢; exact ih h

/-- A miss in the left part of an appended map defers to the right part. -/
theorem mapLookup_append_none (β : Type) (k : String) (l l₂ : List (String × β))
    (h : mapLookup β k l = none) :
    mapLookup β k (l ++ l₂) = mapLookup β k l₂ := by
  induction l with
  | nil => rfl
  | cons kv rest ih =>
      rw [List.cons_append, mapLookup_cons]
      rw [mapLookup_cons] at h
      by_cases hkv : kv.1 = k
      · rw [if_pos hkv] at h; cases h
      · rw [if_neg hkv] at h ⊢; exact ih h

end IntelligentCache

open IntelligentCache in
/-- Claim C6: TTL expiry on cache reads.  `get` returns `null` exactly
when the key is absent or the stored item has expired
(`now - timestamp > ttl`).  An absent key only counts a miss; an expired
item is deleted from the cache and counts a miss; a live item is
returned, its `hits` incremented and its `timestamp` refreshed to `now`
(with the global hit counter incremented and no miss counted). -/
theorem cache_get_ttl_expiry (α : Type) (now : Int) (key : String) (c : State α) :
    ((get α now key c).1 = none ↔
      mapLookup (Item α) key c.items = none ∨
      ∃ it, mapLookup (Item α) key c.items = some it ∧ it.ttl < now - it.timestamp) ∧
    (mapLookup (Item α) key c.items = none →
      (get α now key c).2 = { c with misses := c.misses + 1 }) ∧
    (∀ it, mapLookup (Item α) key c.items = some it → it.ttl < now - it.timestamp →
      (get α now key c).1 = none ∧
      (get α now key c).2 =
        { c with items := mapDelete (Item α) key c.items, misses := c.misses + 1 }) ∧
    (∀ it, mapLookup (Item α) key c.items = some it → ¬ it.ttl < now - it.timestamp →
      (get α now key c).1 = some it.data ∧
      mapLookup (Item α) key (get α now key c).2.items =
        some ⟨it.data, now, it.ttl, it.hits + 1, it.size⟩ ∧
      (get α now key c).2.hits = c.hits + 1 ∧
      (get α now key c).2.misses = c.misses) := by
  cases hl : mapLookup (Item α) key c.items with
  | none =>
      refine ⟨by simp [IntelligentCache.get, hl], fun _ => by simp [IntelligentCache.get, hl], ?_, ?_⟩
      · intro it hit; simp [hl] at hit
      · intro it hit; simp [hl] at hit
  | some it0 =>
      by_cases hexp : it0.ttl < now - it0.timestamp
      · refine ⟨by simp [IntelligentCache.get, hl, hexp], by simp [hl], ?_, ?_⟩
        · intro it hit _
          obtain rfl : it0 = it := by simpa [hl] using hit
          exact ⟨by simp [IntelligentCache.get, hl, hexp], by simp [IntelligentCache.get, hl, hexp]⟩
        · intro it hit hlive
          obtain rfl : it0 = it := by simpa [hl] using hit
          exact absurd hexp hlive
      · refine ⟨by simp [IntelligentCache.get, hl, hexp], by simp [hl], ?_, ?_⟩
        · intro it hit hexp'
          obtain rfl : it0 = it := by simpa [hl] using hit
          exact absurd hexp' hexp
        · intro it hit _
          obtain rfl : it0 = it := by simpa [hl] using hit
          refine ⟨by simp [IntelligentCache.get, hl, hexp], ?_, by simp [IntelligentCache.get, hl, hexp],
            by simp [IntelligentCache.get, hl, hexp]⟩
          simp only [IntelligentCache.get, hl, if_neg hexp]
          rw [mapLookup_mapUpdate, hl]
          rfl
  
/-- Witness for `cache_get_ttl_expiry` at the concrete cache `cacheW`. -/
theorem cache_get_ttl_expiry_witness :
    (IntelligentCache.get Nat 5000 "a" cacheW).1 = some 7 ∧
    (IntelligentCache.get Nat 5000 "b" cacheW).1 = none ∧
    (IntelligentCache.get Nat 5000 "b" cacheW).2 =
      { cacheW with
        items := IntelligentCache.mapDelete (IntelligentCache.Item Nat) "b" cacheW.items,
        misses := 1 } ∧
    (IntelligentCache.get Nat 5000 "c" cacheW).2 = { cacheW with misses := 1 } :=
  ⟨((cache_get_ttl_expiry Nat 5000 "a" cacheW).2.2.2 ⟨7, 4000, 30000, 0, 1⟩ rfl
      (by decide)).1,
   ((cache_get_ttl_expiry Nat 5000 "b" cacheW).2.2.1 ⟨8, 0, 10, 0, 1⟩ rfl (by decide)).1,
   ((cache_get_ttl_expiry Nat 5000 "b" cacheW).2.2.1 ⟨8, 0, 10, 0, 1⟩ rfl (by decide)).2,
   (cache_get_ttl_expiry Nat 5000 "c" cacheW).2.1 rfl⟩



namespace IntelligentCache

/-- `tagAdd tag key` registers `key` under `tag`. -/
theorem tagAdd_self_mem (tag key : String) (ts : List (String × List String)) :
    ∃ ks, mapLookup (List String) tag (tagAdd tag key ts) = some ks ∧ key ∈ ks := by
  by_cases hany : ts.any (fun kv => kv.1 = tag) = true
  · obtain ⟨ks0, hks0⟩ := mapLookup_some_of_any_true _ tag ts hany
    refine ⟨if key ∈ ks0 then ks0 else ks0 ++ [key], ?_, ?_⟩
    · rw [tagAdd, if_pos hany, mapLookup_mapUpdate, hks0]; rfl
    · by_cases hmem : key ∈ ks0 <;> simp [hmem]
  · refine ⟨[key], ?_, by simp⟩
    rw [tagAdd, if_neg hany,
      mapLookup_append_none _ tag ts _
        (mapLookup_none_of_any_false _ tag ts (Bool.eq_false_iff.mpr hany))]
    simp [mapLookup_cons]

/-- `tagAdd` never removes an existing registration. -/
theorem tagAdd_preserves_mem (tag tag' key key' : String)
    (ts : List (String × List String))
    (h : ∃ ks, mapLookup (List String) tag ts = some ks ∧ key ∈ ks) :
    ∃ ks, mapLookup (List String) tag (tagAdd tag' key' ts) = some ks ∧ key ∈ ks := by
  obtain ⟨ks, hks, hmem⟩ := h
  by_cases hany : ts.any (fun kv => kv.1 = tag') = true
  · by_cases htag : tag = tag'
    · subst htag
      refine ⟨if key' ∈ ks then ks else ks ++ [key'], ?_, ?_⟩
      · rw [tagAdd, if_pos hany, mapLookup_mapUpdate, hks]; rfl
      · by_cases h2 : key' ∈ ks <;> simp [h2, hmem]
    · exact ⟨ks,
        by rw [tagAdd, if_pos hany, mapLookup_mapUpdate_other _ tag' tag htag]; exact hks,
        hmem⟩
  · exact ⟨ks,
      by rw [tagAdd, if_neg hany]; exact mapLookup_append_some _ tag ts _ ks hks,
      hmem⟩

/-- Folding `tagAdd` over a tag list never removes a registration. -/
theorem tagFold_preserves (tag key key' : String) :
    ∀ (tagList : List String) (ts : List (String × List String)),
      (∃ ks, mapLookup (List String) tag ts = some ks ∧ key ∈ ks) →
      ∃ ks, mapLookup (List String) tag
          (tagList.foldl (fun a t => tagAdd t key' a) ts) = some ks ∧ key ∈ ks := by
  intro tagList
  induction tagList with
  | nil => exact fun ts h => h
  | cons t rest ih =>
      intro ts h
      exact ih (tagAdd t key' ts) (tagAdd_preserves_mem tag t key key' ts h)

/-- Folding `tagAdd key` over a tag list registers `key` under each tag
of the list. -/
theorem tagFold_mem (tag key : String) :
    ∀ (tagList : List String) (ts : List (String × List String)), tag ∈ tagList →
      ∃ ks, mapLookup (List String) tag
          (tagList.foldl (fun a t => tagAdd t key a) ts) = some ks ∧ key ∈ ks := by
  intro tagList
  induction tagList with
  | nil => intro ts h; cases h
  | cons t rest ih =>
      intro ts h
      rw [List.foldl_cons]
      by_cases ht : tag = t
      · subst ht
        exact tagFold_preserves tag key key rest (tagAdd tag key ts)
          (tagAdd_self_mem tag key ts)
      · have : tag ∈ rest := by
          cases h with
          | head => exact absurd rfl ht
          | tail _ hh => exact hh
        exact ih (tagAdd t key ts) this

end IntelligentCache

namespace IntelligentCache

/-- Unfolding of `set` when the item passes the `maxSize * 0.1` size
check (the eviction loop then runs and the item is inserted). -/
theorem set_small (α : Type) (now : Int) (key : String) (data : α)
    (sz : Nat) (ttl : Int) (c : State α)
    (h : ¬ ((sz : ℚ) > (c.maxSize : ℚ) * (1 / 10))) :
    set α now key data sz ttl c =
      match evictLoop α now (c.items.length + 1) c with
      | none => none
      | some c' =>
          some { c' with
            items := mapInsert (Item α) key ⟨data, now, ttl, 0, sz⟩ c'.items } := by
  rw [set, if_neg h]

end IntelligentCache

open IntelligentCache in
/-- Claim C7: tag-based invalidation.  `setWithTags` registers the key
under every given tag; after `invalidateByTag tag`, every key registered
under `tag` is gone from the cache (a lookup misses and `get` returns
`null`); keys not registered under `tag` keep exactly the cache entry
they had. -/
theorem cache_tag_invalidation (α : Type) :
    (∀ (now : Int) (key : String) (data : α) (sz : Nat) (tagList : List String)
       (ttl : Option Int) (c c' : State α),
       setWithTags α now key data sz tagList ttl c = some c' →
       ∀ tag ∈ tagList,
         ∃ ks, mapLookup (List String) tag c'.tags = some ks ∧ key ∈ ks) ∧
    (∀ (c : State α) (tag key : String) (ks : List String),
       mapLookup (List String) tag c.tags = some ks → key ∈ ks →
       mapLookup (Item α) key (invalidateByTag α tag c).items = none ∧
       ∀ now, (IntelligentCache.get α now key (invalidateByTag α tag c)).1 = none) ∧
    (∀ (c : State α) (tag key : String),
       (∀ ks, mapLookup (List String) tag c.tags = some ks → key ∉ ks) →
       mapLookup (Item α) key (invalidateByTag α tag c).items =
         mapLookup (Item α) key c.items) := by
  refine ⟨?_, ?_, ?_⟩
  · intro now key data sz tagList ttl c c' hsw tag htag
    cases hset : set α now key data sz (ttl.getD (30 * 60 * 1000)) c with
    | none => rw [setWithTags, hset] at hsw; cases hsw
    | some c'' =>
        rw [setWithTags, hset] at hsw
        obtain rfl : _ = c' := Option.some.inj hsw
        exact tagFold_mem tag key tagList c''.tags htag
  · intro c tag key ks hks hkmem
    have hnone : mapLookup (Item α) key (invalidateByTag α tag c).items = none := by
      simp only [invalidateByTag, hks]
      exact foldDelete_mem (Item α) key ks c.items hkmem
    exact ⟨hnone, fun now => by simp [IntelligentCache.get, hnone]⟩
  · intro c tag key hkn
    cases hks : mapLookup (List String) tag c.tags with
    | none => simp [invalidateByTag, hks]
    | some ks =>
        simp only [invalidateByTag, hks]
        exact foldDelete_not_mem (Item α) key ks c.items (hkn ks hks)

/-- Witness for `cache_tag_invalidation` at the concrete caches above. -/
theorem cache_tag_invalidation_witness :
    (∃ ks, IntelligentCache.mapLookup (List String) "t2" tagCacheW'.tags = some ks ∧
      "z" ∈ ks) ∧
    IntelligentCache.mapLookup (IntelligentCache.Item Nat) "x"
      (IntelligentCache.invalidateByTag Nat "t" tagCacheW).items = none ∧
    (IntelligentCache.get Nat 60 "x" (IntelligentCache.invalidateByTag Nat "t" tagCacheW)).1 =
      none ∧
    IntelligentCache.mapLookup (IntelligentCache.Item Nat) "y"
      (IntelligentCache.invalidateByTag Nat "t" tagCacheW).items =
      IntelligentCache.mapLookup (IntelligentCache.Item Nat) "y" tagCacheW.items := by
  refine ⟨?_, ?_, ?_, ?_⟩
  · refine (cache_tag_invalidation Nat).1 50 "z" 9 1 ["t2"] none tagCacheW tagCacheW'
      ?_ "t2" (by simp)
    rw [IntelligentCache.setWithTags, IntelligentCache.set_small]
    · rfl
    · norm_num [tagCacheW]
  · exact ((cache_tag_invalidation Nat).2.1 tagCacheW "t" "x" ["x"] rfl (by simp)).1
  · exact ((cache_tag_invalidation Nat).2.1 tagCacheW "t" "x" ["x"] rfl (by simp)).2 60
  · exact (cache_tag_invalidation Nat).2.2 tagCacheW "t" "y" (fun ks h => by
      rw [show IntelligentCache.mapLookup (List String) "t" tagCacheW.tags = some ["x"]
        from rfl] at h
      obtain rfl := Option.some.inj h
      decide)

/-- Claim C8: CSV export format.  `exportEntries('csv')` yields the fixed
header line followed by exactly one comma-joined line per exported entry,
in order; `Title`, `Content` and the joined tag list are wrapped in
double quotes, embedded quotes in `Title` and `Content` are doubled, and
newlines in `Content` become the two characters backslash-`n`.  Any
format other than `'json'`, `'csv'` and `'markdown'` throws
`'Unsupported export format'`. -/
theorem exportEntries_csv_format :
    (∀ entries : List DiaryEntry,
      exportList "csv" entries = .ok (String.intercalate "\n"
        ("Date,Title,Content,Mood,Tags,Location,Weather,Word Count,Private,Favorite" ::
          entries.map (fun e => String.intercalate ","
            [ isoDateDay e.date,
              "\"" ++ strReplace e.title "\"" "\"\"" ++ "\"",
              "\"" ++ strReplace (strReplace e.content "\"" "\"\"") "\n" "\\n" ++ "\"",
              (match e.mood with | some m => m.str | none => ""),
              "\"" ++ String.intercalate ", " e.tags ++ "\"",
              e.location.getD "",
              e.weather.getD "",
              toString e.wordCount,
              (if e.isPrivate then "true" else "false"),
              (if e.isFavorite then "true" else "false") ])))) ∧
    (∀ (format : String) (entries : List DiaryEntry),
      format ≠ "json" → format ≠ "csv" → format ≠ "markdown" →
      exportList format entries = .error "Unsupported export format") := by
  refine ⟨fun _ => rfl, fun format entries h1 h2 h3 => ?_⟩
  rw [exportList, if_neg h1, if_neg h2, if_neg h3]

/-- Witness for `exportEntries_csv_format`: the unsupported format
`"xml"` throws, and the CSV branch renders a concrete one-entry store. -/
theorem exportEntries_csv_format_witness :
    exportList "xml" [] = .error "Unsupported export format" ∧
    exportList "csv"
      [DiaryEntry.mk ⟨some 1, "a\"b", "l1\nl2", 1700000000000, none, some .happy,
        some "sun", none, ["x", "y"], 4, 1, true, false, none, none, .pending,
        none, none, "dev", 1, 0, 0⟩] =
      .ok ("Date,Title,Content,Mood,Tags,Location,Weather,Word Count,Private,Favorite\n" ++
        "2023-11-14,\"a\"\"b\",\"l1\\nl2\",happy,\"x, y\",,sun,4,true,false") :=
  ⟨exportEntries_csv_format.2 "xml" [] (by decide) (by decide) (by decide),
   (exportEntries_csv_format.1 _).trans (by rfl)⟩

/-- The fetched list is a permutation of the table contents. -/
theorem fetchList_perm (t : List DiaryEntry) : (fetchList t).Perm t :=
  (List.reverse_perm _).trans (List.perm_insertionSort dateLe t)

/-- The fetched list is ordered by date descending. -/
theorem fetchList_sorted (t : List DiaryEntry) :
    (fetchList t).Pairwise (fun a b => b.date ≤ a.date) :=
  List.pairwise_reverse.mpr (List.sorted_insertionSort dateLe t)

/-- Claim C4: CRUD round-trip on the diary store.  A successful
`addEntry` (which itself refreshes) leaves the store's `entries` equal to
the persisted table ordered by date descending (a permutation of the
table, sorted descending), containing the newly stored entry, whose
`createdAt` equals its `updatedAt`; after a successful `deleteEntry id`,
no entry with that id remains in the list. -/
theorem diaryStore_crud_roundtrip :
    ∀ (input : DiaryStore.EntryInput) (now : Int) (db : DB) (s : StoreState) (eid : Nat),
      ((DiaryStore.addEntry input now true true db s).2.entries.Perm
        (DiaryStore.addEntry input now true true db s).1.entries ∧
       (DiaryStore.addEntry input now true true db s).2.entries.Pairwise
         (fun a b => b.date ≤ a.date) ∧
       DiaryEntry.mk { (DiaryStore.mkNewEntry input now).fields with id := some db.nextId } ∈
         (DiaryStore.addEntry input now true true db s).2.entries ∧
       (DiaryEntry.mk { (DiaryStore.mkNewEntry input now).fields with
          id := some db.nextId }).createdAt =
         (DiaryEntry.mk { (DiaryStore.mkNewEntry input now).fields with
            id := some db.nextId }).updatedAt) ∧
      ((DiaryStore.deleteEntry eid true true db s).2.entries.all
        (fun e => e.id != some eid) = true) := by
  intro input now db s eid
  refine ⟨⟨fetchList_perm _, fetchList_sorted _, ?_, rfl⟩, ?_⟩
  · exact (fetchList_perm _).mem_iff.mpr
      (List.mem_append_right _ (List.mem_singleton.mpr rfl))
  · rw [List.all_eq_true]
    intro e he
    have hmem := (fetchList_perm _).subset he
    rw [show (db.deleteEntry eid).entries =
      db.entries.filter (fun x => x.id ≠ some eid) from rfl] at hmem
    simp only [List.mem_filter, decide_eq_true_eq] at hmem
    simpa [bne_iff_ne] using hmem.2

namespace IntelligentCache

/-- A score strictly below something is finite. -/
theorem ltOpt_some_of_true {a b : Option ℚ} (h : ltOpt a b = true) : ∃ q, a = some q := by
  cases a with
  | none => cases h
  | some q => exact ⟨q, rfl⟩

/-- The scan comparison is irreflexive. -/
theorem ltOpt_irrefl (a : Option ℚ) : ltOpt a a = false := by
  cases a with
  | none => rfl
  | some q => simp [ltOpt]

/-- The scan comparison is transitive. -/
theorem ltOpt_trans {a b c : Option ℚ} (h1 : ltOpt a b = true) (h2 : ltOpt b c = true) :
    ltOpt a c = true := by
  cases a with
  | none => cases h1
  | some qa =>
      cases b with
      | none => cases h2
      | some qb =>
          cases c with
          | none => rfl
          | some qc =>
              simp only [ltOpt, decide_eq_true_eq] at h1 h2 ⊢
              exact lt_trans h1 h2

/-- The scan result is either the initial accumulator or the key/score
of one of the scanned items. -/
theorem selectGo_origin (α : Type) (now : Int) :
    ∀ (l : List (String × Item α)) (acc : Option String × Option ℚ),
      selectGo α now l acc = acc ∨
      ∃ kv ∈ l, selectGo α now l acc = (some kv.1, scoreOf α now kv.2) := by
  intro l
  induction l with
  | nil => exact fun acc => Or.inl rfl
  | cons kv rest ih =>
      intro acc
      simp only [selectGo]
      by_cases hlt : ltOpt (scoreOf α now kv.2) acc.2 = true
      · rw [if_pos hlt]
        rcases ih (some kv.1, scoreOf α now kv.2) with h | ⟨kv', hkv', h⟩
        · exact Or.inr ⟨kv, List.mem_cons_self _ _, h⟩
        · exact Or.inr ⟨kv', List.mem_cons_of_mem _ hkv', h⟩
      · rw [if_neg hlt]
        rcases ih acc with h | ⟨kv', hkv', h⟩
        · exact Or.inl h
        · exact Or.inr ⟨kv', List.mem_cons_of_mem _ hkv', h⟩

/-- The running minimum never increases during the scan. -/
theorem selectGo_le (α : Type) (now : Int) :
    ∀ (l : List (String × Item α)) (acc : Option String × Option ℚ),
      (selectGo α now l acc).2 = acc.2 ∨
      ltOpt (selectGo α now l acc).2 acc.2 = true := by
  intro l
  induction l with
  | nil => exact fun acc => Or.inl rfl
  | cons kv rest ih =>
      intro acc
      simp only [selectGo]
      by_cases hlt : ltOpt (scoreOf α now kv.2) acc.2 = true
      · rw [if_pos hlt]
        rcases ih (some kv.1, scoreOf α now kv.2) with h | h
        · exact Or.inr (h ▸ hlt)
        · exact Or.inr (ltOpt_trans h hlt)
      · rw [if_neg hlt]
        exact ih acc

/-- No scanned item scores strictly below the scan result: the selected
score is minimal (`NaN`/`Infinity` scores counting as never smaller). -/
theorem selectGo_min (α : Type) (now : Int) :
    ∀ (l : List (String × Item α)) (acc : Option String × Option ℚ),
      ∀ kv ∈ l, ltOpt (scoreOf α now kv.2) (selectGo α now l acc).2 = false := by
  intro l
  induction l with
  | nil => intro acc kv h; cases h
  | cons hd tl ih =>
      intro acc kv hkv
      simp only [selectGo]
      cases hkv with
      | tail _ htl =>
          by_cases hlt : ltOpt (scoreOf α now hd.2) acc.2 = true
          · rw [if_pos hlt]; exact ih _ kv htl
          · rw [if_neg hlt]; exact ih _ kv htl
      | head =>
          by_cases hlt : ltOpt (scoreOf α now hd.2) acc.2 = true
          · rw [if_pos hlt]
            have hnacc : ltOpt (scoreOf α now hd.2) (some hd.1, scoreOf α now hd.2).2 =
                false := ltOpt_irrefl _
            rcases selectGo_le α now tl (some hd.1, scoreOf α now hd.2) with h | h
            · rw [h]; exact hnacc
            · rw [Bool.eq_false_iff]
              intro hcon
              have := ltOpt_trans hcon h
              rw [hnacc] at this
              cases this
          · rw [if_neg hlt]
            rcases selectGo_le α now tl acc with h | h
            · rw [h, Bool.eq_false_iff]; exact hlt
            · rw [Bool.eq_false_iff]
              intro hcon
              exact hlt (ltOpt_trans hcon h)

/-- Removing a present key from a map with distinct keys removes exactly
one entry. -/
theorem mapDelete_length_of_mem (β : Type) (k : String) (it : β) :
    ∀ l : List (String × β), (k, it) ∈ l → (l.map Prod.fst).Nodup →
      (mapDelete β k l).length + 1 = l.length := by
  intro l
  induction l with
  | nil => intro h; cases h
  | cons hd tl ih =>
      intro hmem hnd
      rw [mapDelete_cons]
      simp only [List.map_cons, List.nodup_cons] at hnd
      by_cases hhd : hd.1 = k
      · rw [if_pos hhd]
        have htl : mapDelete β k tl = tl := by
          rw [mapDelete, List.filter_eq_self]
          intro kv hkv
          simp only [decide_eq_true_eq]
          intro hk2
          exact hnd.1 (by
            rw [hhd, ← hk2]
            exact List.mem_map_of_mem Prod.fst hkv)
        rw [htl, List.length_cons]
      · rw [if_neg hhd]
        have htl : (k, it) ∈ tl := by
          cases hmem with
          | head => exact absurd rfl hhd
          | tail _ h => exact h
        rw [List.length_cons, List.length_cons, ih htl hnd.2]

end IntelligentCache

open IntelligentCache in
/-- Claim C2, amended: whenever the `evictLRU` scan selects a key (some
item has a finite score, i.e. nonzero age) and that key is not the empty
string, `evictLRU` removes exactly that key — a key of minimal
hits-per-minute score among all cached items (`NaN`/`Infinity` scores of
zero-age items counting as never smaller) — and removes nothing else.
(As stated the claim is false: when the selected key is `""`, or when no
item has a finite score, the truthiness test `if (lruKey)` fails and
nothing at all is removed; see `evictLRU_empty_key_removes_nothing`.) -/
theorem evictLRU_removes_min (α : Type) (now : Int) (c : State α) (k : String)
    (hsel : (selectLRU α now c.items).1 = some k) (hk : k ≠ "")
    (hnodup : (c.items.map Prod.fst).Nodup) :
    (∃ it, (k, it) ∈ c.items ∧
      ∀ kv ∈ c.items, ltOpt (scoreOf α now kv.2) (scoreOf α now it) = false) ∧
    evictLRU α now c = { c with items := mapDelete (Item α) k c.items } ∧
    (mapDelete (Item α) k c.items).length + 1 = c.items.length := by
  rcases selectGo_origin α now c.items (none, none) with h | ⟨kv, hkv, h⟩
  · rw [selectLRU, h] at hsel; cases hsel
  · have hk1 : kv.1 = k := by
      rw [selectLRU, h] at hsel
      exact Option.some.inj hsel
    have hmem : (k, kv.2) ∈ c.items := hk1 ▸ hkv
    have hmin : ∀ kv' ∈ c.items,
        ltOpt (scoreOf α now kv'.2) (scoreOf α now kv.2) = false := by
      intro kv' hkv'
      have := selectGo_min α now c.items (none, none) kv' hkv'
      rw [h] at this
      simpa using this
    have hlen : ¬ c.items.length = 0 := by
      intro h0
      rw [List.length_eq_zero] at h0
      rw [h0] at hmem
      cases hmem
    refine ⟨⟨kv.2, hmem, hmin⟩, ?_,
      mapDelete_length_of_mem (Item α) k kv.2 c.items hmem hnodup⟩
    simp only [evictLRU, if_neg hlen, hsel]
    rw [if_neg hk]

/-- Counterexample to claim C2 as stated: on the non-empty cache
`lruStuckCache` the scan does select the (unique, hence minimal-score)
key — the empty string — but `if (lruKey)` is falsy on `""`, so
`evictLRU` removes nothing at all instead of removing that key. -/
theorem evictLRU_empty_key_removes_nothing :
    lruStuckCache.items.length = 1 ∧
    (IntelligentCache.selectLRU Nat 60000 lruStuckCache.items).1 = some "" ∧
    IntelligentCache.evictLRU Nat 60000 lruStuckCache = lruStuckCache :=
  ⟨rfl, rfl, rfl⟩

/-- Witness for `evictLRU_removes_min` at the concrete cache
`lruWitnessCache`. -/
theorem evictLRU_removes_min_witness :
    (∃ it, ("b", it) ∈ lruWitnessCache.items ∧
      ∀ kv ∈ lruWitnessCache.items,
        IntelligentCache.ltOpt (IntelligentCache.scoreOf Nat 60000 kv.2)
          (IntelligentCache.scoreOf Nat 60000 it) = false) ∧
    IntelligentCache.evictLRU Nat 60000 lruWitnessCache =
      { lruWitnessCache with
        items := IntelligentCache.mapDelete (IntelligentCache.Item Nat) "b"
          lruWitnessCache.items } ∧
    (IntelligentCache.mapDelete (IntelligentCache.Item Nat) "b"
        lruWitnessCache.items).length + 1 = lruWitnessCache.items.length := by
  have h := evictLRU_removes_min Nat 60000 lruWitnessCache "b" rfl
    (by decide) (by decide)
  exact ⟨h.1, h.2.1, h.2.2⟩

/-- Claim C10 fails on the code: on `setStuckCache` the limits are
exceeded, yet `evictLRU` removes nothing (the selected minimal key is
`""`, which `if (lruKey)` treats as falsy), so the eviction loop
`while (shouldEvict()) evictLRU()` repeats a fixed point and `set` never
returns (the fuelled loop reports divergence).  The same happens when
every item was stored at the current millisecond (all scores `NaN`,
`lruKey` stays `null`). -/
theorem cache_set_no_progress_diverges :
    IntelligentCache.shouldEvict Nat setStuckCache = true ∧
    IntelligentCache.evictLRU Nat 60000 setStuckCache = setStuckCache ∧
    IntelligentCache.set Nat 60000 "other" 5 1 1000 setStuckCache = none := by
  refine ⟨rfl, rfl, ?_⟩
  rw [IntelligentCache.set_small]
  · rfl
  · norm_num [setStuckCache]
